import Mathlib

/-!
# Verification of the nanoclaw safe-backup pipeline

Shallow embedding of `src/backup-safe.ts` (the module exporting
`createSafeBackup`, `uploadBackup`, `restoreFromBackup`, `cleanupOldBackups`
and `verifyLatestBackup`).  Byte buffers are `List (Fin 256)`; the external
Node.js collaborators (the `crypto` AES-256-GCM cipher, the `zlib` gzip codec,
the SHA-256 hash, the Vercel blob store and the filesystem) are modelled
executably at their interface: the cipher is an invertible keyed stream with a
16-byte authentication tag that must verify, gzip is an invertible framing
with a 2-byte magic header, and SHA-256 is a deterministic 32-byte digest.
Randomness (`randomBytes`), the clock (`Date.now()`), the environment and
remote/filesystem failures are passed in as explicit parameters.
-/

set_option maxRecDepth 100000

deriving instance DecidableEq for Except

namespace NanoBackup

abbrev Byte := Fin 256

abbrev Bytes := List Byte

def byte (n : Nat) : Byte := ⟨n % 256, Nat.mod_lt _ (by norm_num)⟩

/-- One step of the 32-bit rolling mix used by the toy hash/MAC models. -/
def mix32 (acc : Nat) (b : Byte) : Nat := (acc * 31 + b.val + 1) % 4294967296

/-- Rolling hash of a buffer, seed 7; the basis of the modelled digests. -/
def mixFold (l : Bytes) : Nat := l.foldl mix32 7

/-- Model of `createHash('sha256').update(b).digest()`: a deterministic
32-byte digest of the buffer (the source compares digests for equality and
never inspects their structure). -/
def sha256B (b : Bytes) : Bytes :=
  (List.range 32).map (fun i => byte (mixFold b + 37 * i))

/-- Keystream byte `i` of the modelled AES-256-GCM cipher under `key`/`iv`. -/
def ksByte (key iv : Bytes) (i : Nat) : Byte := byte (mixFold (key ++ iv) + 131 * i)

/-- Ciphertext of the modelled cipher: each plaintext byte is shifted by the
keystream (an invertible keyed stream, as AES-CTR inside GCM is). -/
def encCore (key iv : Bytes) : Nat → Bytes → Bytes
  | _, [] => []
  | i, p :: rest => (p + ksByte key iv i) :: encCore key iv (i + 1) rest

/-- Inverse keyed stream of `encCore`. -/
def decCore (key iv : Bytes) : Nat → Bytes → Bytes
  | _, [] => []
  | i, c :: rest => (c - ksByte key iv i) :: decCore key iv (i + 1) rest

/-- Model of the 16-byte GCM authentication tag over `key`, `iv` and the
ciphertext: decryption must present exactly this tag or fail. -/
def gcmTag (key iv ct : Bytes) : Bytes :=
  (List.range 16).map (fun i => byte (mixFold (key ++ (iv ++ ct)) + 17 * i))

inductive BackupError where
  | configError (msg : String)
  | captureError (msg : String)
  | cryptoError (msg : String)
  | formatError (msg : String)
  | checksumError (msg : String)
  | notFoundError (msg : String)
  | remoteError (msg : String)
  | ioError (msg : String)
deriving DecidableEq

/-- `encrypt` (backup-safe.ts lines 46-53) with the random `iv` hoisted to a
parameter: `iv || authTag || ciphertext`, with no failure path. -/
def encryptRaw (key iv plain : Bytes) : Bytes :=
  let encrypted := encCore key iv 0 plain
  iv ++ (gcmTag key iv encrypted ++ encrypted)

/-- `encrypt` including Node's `createCipheriv` key-length validation:
`aes-256-gcm` rejects any key that is not exactly 32 bytes. -/
def encryptBuf (key iv plain : Bytes) : Except BackupError Bytes :=
  if key.length ≠ 32 then .error (.cryptoError "Invalid key length")
  else .ok (encryptRaw key iv plain)

/-- Node's `IsValidGCMTagLength`: with no `authTagLength` option given to
`createDecipheriv`, `setAuthTag` accepts the NIST SP 800-38D tag lengths
4, 8 and 12..16 bytes and rejects every other length. -/
def isValidGCMTagLength (n : Nat) : Bool :=
  decide (n = 4) || decide (n = 8) || (decide (12 ≤ n) && decide (n ≤ 16))

/-- `decrypt` (backup-safe.ts lines 58-65): re-slice `iv`/`authTag`/`data`
from the fixed layout, then decrypt with Node's validation order:
`createDecipheriv` rejects a non-32-byte key and an empty iv, `setAuthTag`
rejects a tag whose length is not an accepted GCM tag length (4, 8, 12..16,
since the code passes no `authTagLength` option), and `final()` rejects a
tag that does not equal the authentication tag of the ciphertext truncated
to the supplied tag's length. -/
def decryptBuf (key enc : Bytes) : Except BackupError Bytes :=
  let iv := enc.take 16
  let authTag := (enc.drop 16).take 16
  let data := enc.drop 32
  if key.length ≠ 32 then .error (.cryptoError "Invalid key length")
  else if iv.length = 0 then .error (.cryptoError "Invalid initialization vector")
  else if !(isValidGCMTagLength authTag.length) then
    .error (.cryptoError "Invalid authentication tag length")
  else if authTag = (gcmTag key iv data).take authTag.length then
    .ok (decCore key iv 0 data)
  else .error (.cryptoError "Unsupported state or unable to authenticate data")

/-- The two magic bytes every gzip stream starts with. -/
def gzHeader : Bytes := [byte 31, byte 139]

/-- Model of `createGzip({level}).end(b)`: header plus payload (the level is a
ratio knob with no correctness content, kept to mirror the call). -/
def gzipB (_level : Nat) (b : Bytes) : Bytes := gzHeader ++ b

/-- Model of `createGunzip()`: rejects a stream that does not carry the gzip
framing, otherwise recovers the payload. -/
def gunzipB (x : Bytes) : Except BackupError Bytes :=
  if gzHeader.isPrefixOf x then .ok (x.drop 2)
  else .error (.formatError "incorrect header check")

/-- Bytes of the string `s` (pathnames and key material are ASCII here). -/
def strBytes (s : String) : Bytes := s.data.map (fun c => byte c.toNat)

/-- The 16-byte SQLite magic prefix checked by `restoreFromBackup`:
`'SQLite format 3'` (15 characters, compared with `startsWith`). -/
def sqliteMagic : Bytes := strBytes "SQLite format 3"

/-! ## Calendar arithmetic (`Date` in a UTC process) -/

def msPerDay : Int := 86400000

/-- Days since the Unix epoch of an epoch-millisecond instant (floor). -/
def daysFromMs (ms : Int) : Int := Int.fdiv ms msPerDay

/-- `new Date(ms).getDay()` in a UTC process: 0 is Sunday; 1970-01-01 was a
Thursday (weekday 4). -/
def weekdayOfMs (ms : Int) : Int := (daysFromMs ms + 4) % 7

/-- Civil `(year, month, day)` from days since the epoch (the standard
era/day-of-era decomposition of the proleptic Gregorian calendar). -/
def civilFromDays (z0 : Int) : Int × Int × Int :=
  let z := z0 + 719468
  let era : Int := Int.fdiv z 146097
  let doe : Int := z - era * 146097
  let yoe : Int :=
    Int.fdiv (doe - Int.fdiv doe 1460 + Int.fdiv doe 36524 - Int.fdiv doe 146096) 365
  let y : Int := yoe + era * 400
  let doy : Int := doe - (365 * yoe + Int.fdiv yoe 4 - Int.fdiv yoe 100)
  let mp : Int := Int.fdiv (5 * doy + 2) 153
  let d : Int := doy - Int.fdiv (153 * mp + 2) 5 + 1
  let m : Int := mp + (if mp < 10 then 3 else -9)
  (y + (if m ≤ 2 then 1 else 0), m, d)

/-- `new Date(ms).getDate()` in a UTC process: the calendar day of month. -/
def dayOfMonthOfMs (ms : Int) : Int := (civilFromDays (daysFromMs ms)).2.2

/-- The `shouldKeep` classification of `cleanupOldBackups` (lines 292-302):
`ageDays = (now - uploadedAt) / 86400000` compared against 7 / 28 / 365,
with the day thresholds multiplied through (the divisor is positive, so the
real-number comparisons of the source are equivalent to these). -/
def shouldKeep (uploadedAt nowMs : Int) : Bool :=
  let diff := nowMs - uploadedAt
  let isWeekly := weekdayOfMs uploadedAt = 0
  let isMonthly := dayOfMonthOfMs uploadedAt = 1
  decide (diff < 7 * msPerDay) ||
    (decide isWeekly && decide (diff < 28 * msPerDay)) ||
    (decide isMonthly && decide (diff < 365 * msPerDay))

/-- The retention rule as §4.4 of the spec words it, with `age in days` the
exact rational `(now - uploadedAt) / 86400000`: keep if any of the three
independent windows holds. -/
def retentionSpecClassify (uploadedAt nowMs : Int) : Bool :=
  let ageDays : ℚ := ((nowMs - uploadedAt : Int) : ℚ) / 86400000
  decide (ageDays < 7) ||
    (decide (weekdayOfMs uploadedAt = 0) && decide (ageDays < 28)) ||
    (decide (dayOfMonthOfMs uploadedAt = 1) && decide (ageDays < 365))

/-! ## Metadata, blob store and filesystem -/

/-- `BackupMetadata` (backup-safe.ts lines 35-41); the ISO-8601 `timestamp`
string is carried as its epoch-millisecond instant. -/
structure BackupMetadata where
  version : String
  timestamp : Int
  size : Nat
  checksum : Bytes
  sqliteVersion : String
deriving DecidableEq

/-- Content of a stored object: an opaque byte payload, or the JSON metadata
document (`JSON.stringify` of a `BackupMetadata`). -/
inductive BlobData where
  | raw (bytes : Bytes)
  | meta (m : BackupMetadata)
deriving DecidableEq

/-- A deterministic byte rendering of the metadata JSON text, used when the
code downloads a metadata object as an opaque buffer. -/
def metaTextBytes (m : BackupMetadata) : Bytes :=
  byte 123 :: (m.checksum ++ sha256B (strBytes m.version))

/-- `Buffer.from(await response.arrayBuffer())` on a stored object. -/
def rawBytesOf : BlobData → Bytes
  | .raw b => b
  | .meta m => metaTextBytes m

/-- `await response.json()` parsed as a `BackupMetadata`: succeeds exactly on
a stored metadata document. -/
def parseMetaData : BlobData → Option BackupMetadata
  | .raw _ => none
  | .meta m => some m

/-- One object of the remote blob store, with its store-reported upload
instant (epoch ms, the authoritative ordering key). -/
structure Blob where
  pathname : String
  uploadedAt : Int
  data : BlobData
deriving DecidableEq

/-- Models JavaScript `String.prototype.startsWith`. -/
def strStarts (s p : String) : Bool := p.data.isPrefixOf s.data

/-- Models JavaScript `String.prototype.endsWith`. -/
def strEnds (s p : String) : Bool := p.data.isSuffixOf s.data

/-- `list({prefix})`: every stored object whose key extends the prefix, in
listing order. -/
def listBlobs (store : List Blob) (p : String) : List Blob :=
  store.filter (fun b => strStarts b.pathname p)

/-- `pathname.endsWith('.meta.json')`. -/
def isMetaKey (p : String) : Bool := strEnds p ".meta.json"

/-- Whether the store holds an object under exactly this key. -/
def hasKey (store : List Blob) (p : String) : Bool :=
  store.any (fun b => decide (b.pathname = p))

/-- `BACKUP_PREFIX` of backup-safe.ts. -/
def backupRoot : String := "nanoclaw-backup"

/-- The filesystem: an association of paths to file contents. -/
abbrev FS := List (String × Bytes)

def fsRead (fs : FS) (p : String) : Option Bytes :=
  (fs.find? (fun e => decide (e.1 = p))).map (fun e => e.2)

def fsWrite (fs : FS) (p : String) (c : Bytes) : FS :=
  (p, c) :: fs.filter (fun e => !(decide (e.1 = p)))

/-- `STORE_DIR` of config.ts (an operator-chosen data directory). -/
def storeDir : String := "store"

/-- `path.join(STORE_DIR, 'messages.db')`: the live database file. -/
def dbPath : String := storeDir ++ "/messages.db"

/-! ## Configuration -/

/-- `getBackupKey` (lines 22-28): `BACKUP_KEY?.padEnd(32, '0').slice(0, 32)`
with the string fallback `'nanoclaw-backup-key-32-chars!'` when the variable
is absent or the padded value is falsy, converted to bytes by `Buffer.from`. -/
def getBackupKey (envKey : Option String) : Bytes :=
  match envKey with
  | none => strBytes "nanoclaw-backup-key-32-chars!"
  | some s =>
    let padded := (s ++ String.mk (List.replicate (32 - s.length) '0')).take 32
    if padded = "" then strBytes "nanoclaw-backup-key-32-chars!"
    else strBytes padded

/-- `getBlobToken` (lines 30-33): the credential, or `''` when absent. -/
def getBlobToken (envTok : Option String) : String := envTok.getD ""

/-! ## The pipeline operations -/

/-- `createSafeBackup` (lines 78-146): snapshot the live database (the
`VACUUM INTO` export plus temp-file read-back-and-unlink is modelled as
reading the live file, its net filesystem effect), checksum the plaintext,
gzip at level 9, encrypt, and emit the metadata record
`{version: '1.0', timestamp: now, size, checksum, sqliteVersion: '3.x'}`. -/
def createSafeBackup (key iv : Bytes) (nowMs : Int) (fs : FS) :
    Except BackupError (Bytes × BackupMetadata) :=
  match fsRead fs dbPath with
  | none => .error (.captureError "unable to open database file")
  | some backupBuffer =>
    let checksum := sha256B backupBuffer
    let compressed := gzipB 9 backupBuffer
    match encryptBuf key iv compressed with
    | .error e => .error e
    | .ok encrypted =>
      .ok (encrypted, ⟨"1.0", nowMs, backupBuffer.length, checksum, "3.x"⟩)

def pad2 (n : Int) : String := if n < 10 then "0" ++ toString n else toString n

/-- `date.toISOString().split('T')[0]`: the UTC calendar date of an instant. -/
def isoDateStr (ms : Int) : String :=
  let c := civilFromDays (daysFromMs ms)
  toString c.1 ++ "-" ++ pad2 c.2.1 ++ "-" ++ pad2 c.2.2

/-- `uploadBackup` (lines 151-180): capture, name the artifact
`<root>/daily/<date>_<now>.db`, require the credential, then `put` the
artifact and `put` its metadata document.  `putFails` is the oracle for a
remote `put` rejecting; a thrown error carries the store as mutated so far. -/
def uploadBackup (key iv : Bytes) (envTok : Option String) (fs : FS) (nowMs : Int)
    (putFails : String → Bool) (store : List Blob) :
    Except (BackupError × List Blob) (List Blob) :=
  match createSafeBackup key iv nowMs fs with
  | .error e => .error (e, store)
  | .ok (buffer, metadata) =>
    let filename :=
      backupRoot ++ "/daily/" ++ isoDateStr nowMs ++ "_" ++ toString nowMs ++ ".db"
    let token := getBlobToken envTok
    if token = "" then
      .error (.configError "BLOB_READ_WRITE_TOKEN not configured", store)
    else if putFails filename then .error (.remoteError filename, store)
    else
      let store1 := store ++ [⟨filename, nowMs, .raw buffer⟩]
      if putFails (filename ++ ".meta.json") then
        .error (.remoteError (filename ++ ".meta.json"), store1)
      else .ok (store1 ++ [⟨filename ++ ".meta.json", nowMs, .meta metadata⟩])

/-- `blobs.sort((a, b) => uploadedAt(b) - uploadedAt(a))[0]`: the first listed
blob among those with the maximal store-reported upload time (the sort is
stable, so ties keep listing order). -/
def latestOf : List Blob → Option Blob
  | [] => none
  | b :: r =>
    some (r.foldl (fun best x => if best.uploadedAt < x.uploadedAt then x else best) b)

/-- The daily artifact listing used by restore/verify: keys under
`<root>/daily/` that are not metadata keys. -/
def dailyArtifacts (store : List Blob) : List Blob :=
  (listBlobs store (backupRoot ++ "/daily/")).filter (fun b => !(isMetaKey b.pathname))

/-- The decode half of the codec (lines 233-259): decrypt, gunzip,
cross-check the checksum against the metadata when it is present, and check
that the plaintext starts with the SQLite header magic. -/
def decodePipeline (key : Bytes) (metadata : Option BackupMetadata)
    (encrypted : Bytes) : Except BackupError Bytes :=
  match decryptBuf key encrypted with
  | .error e => .error e
  | .ok compressed =>
    match gunzipB compressed with
    | .error e => .error e
    | .ok dbBuffer =>
      let checksumStep : Except BackupError Unit :=
        match metadata with
        | some m =>
          if sha256B dbBuffer = m.checksum then .ok ()
          else .error (.checksumError "Backup checksum mismatch! File may be corrupted.")
        | none => .ok ()
      match checksumStep with
      | .error e => .error e
      | .ok _ =>
        if sqliteMagic.isPrefixOf (dbBuffer.take 16) then .ok dbBuffer
        else .error (.formatError "Invalid SQLite file format")

/-- Decode of a resolved target (lines 213-259): `list({prefix: target})`,
take `blobs[0]` as the artifact (not-found if the listing is empty), find the
paired metadata document by exact key, then run the decode pipeline. -/
def downloadDecode (key : Bytes) (store : List Blob) (target : String) :
    Except BackupError Bytes :=
  match listBlobs store target with
  | [] => .error (.notFoundError ("Backup not found: " ++ target))
  | backupBlob :: rest =>
    let metaBlob :=
      (backupBlob :: rest).find?
        (fun b => decide (b.pathname = target ++ ".meta.json"))
    let metadata : Except BackupError (Option BackupMetadata) :=
      match metaBlob with
      | none => .ok none
      | some mb =>
        match parseMetaData mb.data with
        | none => .error (.formatError "metadata is not valid JSON")
        | some m => .ok (some m)
    match metadata with
    | .error e => .error e
    | .ok metadata => decodePipeline key metadata (rawBytesOf backupBlob.data)

/-- `${dbPath}.bak.${Date.now()}`: the local safety-copy path. -/
def bakPath (nowMs : Int) : String := dbPath ++ ".bak." ++ toString nowMs

/-- Lines 261-269: if the live file exists, `copyFileSync` it to the safety
copy (`copyFails` is the oracle for that syscall failing), then
`writeFileSync` the decoded bytes over the live path. -/
def installRestored (copyFails : Bool) (fs : FS) (nowMs : Int) (dbBuffer : Bytes) :
    Except (BackupError × FS) FS :=
  match fsRead fs dbPath with
  | some current =>
    if copyFails then .error (.ioError "EIO: copyFileSync failed", fs)
    else .ok (fsWrite (fsWrite fs (bakPath nowMs) current) dbPath dbBuffer)
  | none => .ok (fsWrite fs dbPath dbBuffer)

/-- Decode-then-install for a resolved target key; a thrown error carries the
filesystem as mutated so far. -/
def restoreResolved (key : Bytes) (store : List Blob) (fs : FS) (nowMs : Int)
    (copyFails : Bool) (target : String) : Except (BackupError × FS) FS :=
  match downloadDecode key store target with
  | .error e => .error (e, fs)
  | .ok dbBuffer => installRestored copyFails fs nowMs dbBuffer

/-- `restoreFromBackup` (lines 185-272): require the credential; resolve the
target (the given key, else the latest daily artifact, not-found when none
exist); then decode and install. -/
def restoreFromBackup (key : Bytes) (envTok : Option String) (store : List Blob)
    (fs : FS) (nowMs : Int) (copyFails : Bool) (filename : Option String) :
    Except (BackupError × FS) FS :=
  if getBlobToken envTok = "" then
    .error (.configError "BLOB_READ_WRITE_TOKEN not configured", fs)
  else
    match filename with
    | some t => restoreResolved key store fs nowMs copyFails t
    | none =>
      match latestOf (dailyArtifacts store) with
      | none => .error (.notFoundError "No backup found", fs)
      | some lb => restoreResolved key store fs nowMs copyFails lb.pathname

/-- The deletion worklist of `cleanupOldBackups` (lines 291-309): for each
non-metadata blob under the root, in listing order, push its key and its
paired metadata key when the retention rule says delete. -/
def staleList (nowMs : Int) (dbBlobs : List Blob) : List String :=
  dbBlobs.foldr
    (fun b acc =>
      if shouldKeep b.uploadedAt nowMs then acc
      else b.pathname :: (b.pathname ++ ".meta.json") :: acc)
    []

/-- `cleanupOldBackups` (lines 278-322): without the credential, warn and
return (no error); otherwise delete each worklist key, an individual `del`
failure (`delFails`) being caught and skipped. -/
def cleanupOldBackups (envTok : Option String) (delFails : String → Bool)
    (nowMs : Int) (store : List Blob) : List Blob :=
  if getBlobToken envTok = "" then store
  else
    let dbBlobs := (listBlobs store backupRoot).filter (fun b => !(isMetaKey b.pathname))
    let toDelete := staleList nowMs dbBlobs
    toDelete.foldl
      (fun st p =>
        if delFails p then st else st.filter (fun b => !(decide (b.pathname = p))))
      store

/-- `verifyLatestBackup` (lines 327-360): false without the credential or
with no daily artifacts; otherwise download the latest daily artifact and
attempt decryption only, any thrown error degrading to `false`. -/
def verifyLatestBackup (key : Bytes) (envTok : Option String) (store : List Blob) : Bool :=
  if getBlobToken envTok = "" then false
  else
    match latestOf (dailyArtifacts store) with
    | none => false
    | some latest => (decryptBuf key (rawBytesOf latest.data)).isOk

/-! ## Concrete test fixtures (used by witnesses and counterexamples) -/

/-- A well-formed 32-byte key (as produced from a configured `BACKUP_KEY`). -/
def wKey : Bytes := List.replicate 32 (byte 7)

/-- A 16-byte nonce (as produced by `randomBytes(16)`). -/
def wIv : Bytes := List.replicate 16 (byte 3)

/-- A plaintext database image: starts with the SQLite magic. -/
def wPlain : Bytes := sqliteMagic

/-- A valid stored artifact: gzip then encrypt of `wPlain`. -/
def wArtifact : Bytes := encryptRaw wKey wIv (gzipB 9 wPlain)

/-- One valid stored daily artifact blob. -/
def wBlob : Blob := ⟨"nanoclaw-backup/daily/2026-01-05_99.db", 10, .raw wArtifact⟩

/-- A store holding one valid daily artifact (no metadata document). -/
def wStore : List Blob := [wBlob]

/-- A store whose single daily artifact is corrupt (1 byte long). -/
def wCorruptStore : List Blob :=
  [⟨"nanoclaw-backup/daily/2026-01-05_99.db", 10, .raw [byte 1]⟩]

/-- A store whose single daily artifact decrypts cleanly but does not
decompress: the encrypted payload is not a gzip stream. -/
def wBadGzStore : List Blob :=
  [⟨"nanoclaw-backup/daily/2026-01-05_99.db", 10, .raw (encryptRaw wKey wIv [byte 0])⟩]

/-- A filesystem with a live database file of one byte. -/
def wFs : FS := [(dbPath, [byte 9])]

/-- A store holding one stale artifact/metadata pair (uploaded at the epoch,
far past every retention window as of 2026-03-15). -/
def wPairStore : List Blob :=
  [⟨"nanoclaw-backup/daily/2026-01-01_1.db", 0, .raw [byte 1]⟩,
   ⟨"nanoclaw-backup/daily/2026-01-01_1.db.meta.json", 0, .meta ⟨"1.0", 0, 0, [], "3.x"⟩⟩]

/-- A `del` failure oracle that rejects exactly the metadata key of
`wPairStore`, modelling one failed remote delete. -/
def wDelFails : String → Bool :=
  fun p => decide (p = "nanoclaw-backup/daily/2026-01-01_1.db.meta.json")

/-- 2026-03-15T00:00:00Z in epoch milliseconds (a Sunday). -/
def now2026 : Int := 1773532800000

/-! ## Helper lemmas -/

theorem take_len {l₁ l₂ : Bytes} {n : Nat} (h : l₁.length = n) :
    (l₁ ++ l₂).take n = l₁ := by
  subst h; exact List.take_left l₁ l₂

theorem drop_len {l₁ l₂ : Bytes} {n : Nat} (h : l₁.length = n) :
    (l₁ ++ l₂).drop n = l₂ := by
  subst h; exact List.drop_left l₁ l₂

theorem decCore_encCore (key iv : Bytes) :
    ∀ (i : Nat) (l : Bytes), decCore key iv i (encCore key iv i l) = l := by
  intro i l
  induction l generalizing i with
  | nil => rfl
  | cons p rest ih => simp [encCore, decCore, ih]

theorem length_gcmTag (key iv ct : Bytes) : (gcmTag key iv ct).length = 16 := by
  simp [gcmTag]

/-- The modelled cipher decrypts what it encrypted, under a valid key. -/
theorem decryptBuf_encryptRaw (key iv plain : Bytes) (hk : key.length = 32)
    (hiv : iv.length = 16) :
    decryptBuf key (encryptRaw key iv plain) = .ok plain := by
  have henc : encryptRaw key iv plain
      = iv ++ (gcmTag key iv (encCore key iv 0 plain) ++ encCore key iv 0 plain) := rfl
  have htake : (encryptRaw key iv plain).take 16 = iv := by
    rw [henc]; exact take_len hiv
  have hdrop : (encryptRaw key iv plain).drop 16
      = gcmTag key iv (encCore key iv 0 plain) ++ encCore key iv 0 plain := by
    rw [henc]; exact drop_len hiv
  have htag : ((encryptRaw key iv plain).drop 16).take 16
      = gcmTag key iv (encCore key iv 0 plain) := by
    rw [hdrop]; exact take_len (length_gcmTag key iv _)
  have hdata : (encryptRaw key iv plain).drop 32 = encCore key iv 0 plain := by
    have h1 : ((encryptRaw key iv plain).drop 16).drop 16
        = (encryptRaw key iv plain).drop 32 := by rw [List.drop_drop]
    rw [← h1, hdrop]; exact drop_len (length_gcmTag key iv _)
  have htk16 : (gcmTag key iv (encCore key iv 0 plain)).take 16
      = gcmTag key iv (encCore key iv 0 plain) :=
    List.take_of_length_le (le_of_eq (length_gcmTag key iv _))
  simp only [decryptBuf, htake, htag, hdata]
  rw [hk]
  simp [hiv, decCore_encCore, length_gcmTag, htk16, isValidGCMTagLength]

/-- The modelled gzip codec is lossless. -/
theorem gunzipB_gzipB (level : Nat) (b : Bytes) : gunzipB (gzipB level b) = .ok b := by
  simp [gunzipB, gzipB, gzHeader, List.isPrefixOf]

theorem find?_filter_ne (fs : FS) (p q : String) (h : q ≠ p) :
    (fs.filter (fun e => !(decide (e.1 = p)))).find? (fun e => decide (e.1 = q))
      = fs.find? (fun e => decide (e.1 = q)) := by
  have hpq : ¬(p = q) := fun hh => h hh.symm
  induction fs with
  | nil => rfl
  | cons a t ih =>
    by_cases hap : a.1 = p
    · have haq : ¬(a.1 = q) := by rw [hap]; exact hpq
      simp [List.filter_cons, hap, List.find?_cons, haq, hpq, ih]
    · by_cases haq : a.1 = q <;>
        simp [List.filter_cons, hap, List.find?_cons, haq, hpq, h, ih]

theorem fsRead_fsWrite_self (fs : FS) (p : String) (c : Bytes) :
    fsRead (fsWrite fs p c) p = some c := by
  simp [fsRead, fsWrite, List.find?_cons]

theorem fsRead_fsWrite_ne (fs : FS) (p q : String) (c : Bytes) (h : q ≠ p) :
    fsRead (fsWrite fs p c) q = fsRead fs q := by
  have hpq : ¬(p = q) := fun hh => h hh.symm
  simp [fsRead, fsWrite, List.find?_cons, hpq, find?_filter_ne fs p q h]

theorem dbPath_ne_bakPath (n : Int) : dbPath ≠ bakPath n := by
  intro h
  have hlen := congrArg String.length h
  have h5 : (".bak." : String).length = 5 := rfl
  rw [bakPath, String.length_append, String.length_append, h5] at hlen
  omega

/-- Every thrown exit of `restoreFromBackup` carries the filesystem
unchanged: all throw sites precede the safety copy and the live write. -/
theorem restore_error_fs (key : Bytes) (envTok : Option String) (store : List Blob)
    (fs : FS) (nowMs : Int) (copyFails : Bool) (filename : Option String)
    (e : BackupError) (fs2 : FS)
    (h : restoreFromBackup key envTok store fs nowMs copyFails filename
      = .error (e, fs2)) : fs2 = fs := by
  unfold restoreFromBackup restoreResolved installRestored at h
  split at h
  · simp at h; exact h.2.symm
  · split at h
    · split at h
      · simp at h; exact h.2.symm
      · split at h
        · split at h
          · simp at h; exact h.2.symm
          · simp at h
        · simp at h
    · split at h
      · simp at h; exact h.2.symm
      · split at h
        · simp at h; exact h.2.symm
        · split at h
          · split at h
            · simp at h; exact h.2.symm
            · simp at h
          · simp at h

/-- The blob the sort-and-take-first selection returns has the maximal
store-reported upload time of the listing. -/
theorem latestOf_some (l : List Blob) (b : Blob) :
    ∃ lb, latestOf (b :: l) = some lb ∧ ∀ x ∈ b :: l, x.uploadedAt ≤ lb.uploadedAt := by
  induction l generalizing b with
  | nil => exact ⟨b, rfl, by simp⟩
  | cons c t ih =>
    obtain ⟨lb, hlb, hmax⟩ := ih (if b.uploadedAt < c.uploadedAt then c else b)
    refine ⟨lb, ?_, ?_⟩
    · simpa [latestOf] using hlb
    · intro x hx
      have hhead := hmax _ (List.mem_cons_self _ _)
      rcases List.mem_cons.mp hx with hxb | hx1
      · subst hxb
        split at hhead
        · exact le_trans (le_of_lt (by assumption)) hhead
        · exact hhead
      · rcases List.mem_cons.mp hx1 with hxc | hxt
        · subst hxc
          split at hhead
          · exact hhead
          · exact le_trans (le_of_not_lt (by assumption)) hhead
        · exact hmax _ (List.mem_cons_of_mem _ hxt)

theorem hasKey_filter_ne (st : List Blob) (p q : String) :
    hasKey (st.filter (fun b => !(decide (b.pathname = p)))) q
      = (hasKey st q && !(decide (q = p))) := by
  induction st with
  | nil => simp [hasKey]
  | cons a t ih =>
    by_cases hap : a.pathname = p <;> by_cases haq : a.pathname = q <;>
      simp_all [hasKey, List.filter_cons, List.any_cons]

/-- With every individual `del` succeeding, the delete loop removes exactly
the worklist keys. -/
theorem hasKey_delete_fold (toDel : List String) (df : String → Bool)
    (hdf : ∀ p, df p = false) (st : List Blob) (q : String) :
    hasKey
      (toDel.foldl
        (fun s p =>
          if df p then s else s.filter (fun b => !(decide (b.pathname = p))))
        st) q
      = (hasKey st q && !(decide (q ∈ toDel))) := by
  induction toDel generalizing st with
  | nil => cases h : hasKey st q <;> simp [h, List.not_mem_nil]
  | cons p ps ih =>
    simp only [List.foldl_cons, hdf p, Bool.false_eq_true, if_false]
    rw [ih, hasKey_filter_ne]
    cases hq : decide (q = p) <;> cases hq2 : decide (q ∈ ps) <;>
      simp_all [List.mem_cons]

/-- A stale artifact contributes both its own key and its paired metadata key
to the deletion worklist. -/
theorem mem_staleList (nowMs : Int) (l : List Blob) (b : Blob) (hb : b ∈ l)
    (hk : shouldKeep b.uploadedAt nowMs = false) :
    b.pathname ∈ staleList nowMs l
      ∧ (b.pathname ++ ".meta.json") ∈ staleList nowMs l := by
  induction l with
  | nil => cases hb
  | cons a t ih =>
    have hstep : staleList nowMs (a :: t)
        = if shouldKeep a.uploadedAt nowMs then staleList nowMs t
          else a.pathname :: (a.pathname ++ ".meta.json") :: staleList nowMs t := rfl
    rcases List.mem_cons.mp hb with hba | hbt
    · subst hba
      rw [hstep, hk]
      simp
    · obtain ⟨h1, h2⟩ := ih hbt
      rw [hstep]
      split
      · exact ⟨h1, h2⟩
      · exact ⟨List.mem_cons_of_mem _ (List.mem_cons_of_mem _ h1),
          List.mem_cons_of_mem _ (List.mem_cons_of_mem _ h2)⟩

/-- The millisecond-threshold form of the retention rule agrees with the
spec's age-in-days form (division by the positive constant 86400000). -/
theorem shouldKeep_eq_spec (uploadedAt nowMs : Int) :
    shouldKeep uploadedAt nowMs = retentionSpecClassify uploadedAt nowMs := by
  have hpos : (0 : ℚ) < 86400000 := by norm_num
  have h7 : (((nowMs - uploadedAt : Int) : ℚ) / 86400000 < 7)
      ↔ (nowMs - uploadedAt < 7 * msPerDay) := by
    rw [div_lt_iff₀ hpos, msPerDay]
    constructor
    · intro h; exact_mod_cast h
    · intro h; exact_mod_cast h
  have h28 : (((nowMs - uploadedAt : Int) : ℚ) / 86400000 < 28)
      ↔ (nowMs - uploadedAt < 28 * msPerDay) := by
    rw [div_lt_iff₀ hpos, msPerDay]
    constructor
    · intro h; exact_mod_cast h
    · intro h; exact_mod_cast h
  have h365 : (((nowMs - uploadedAt : Int) : ℚ) / 86400000 < 365)
      ↔ (nowMs - uploadedAt < 365 * msPerDay) := by
    rw [div_lt_iff₀ hpos, msPerDay]
    constructor
    · intro h; exact_mod_cast h
    · intro h; exact_mod_cast h
  rw [Bool.eq_iff_iff]
  simp only [shouldKeep, retentionSpecClassify, Bool.or_eq_true, Bool.and_eq_true,
    decide_eq_true_eq]
  rw [h7, h28, h365]

/-! ## Claims -/

/-- C1: Round-trip — for every byte buffer `B` that begins with the SQLite
magic, encoding it (SHA-256 checksum, gzip, AES-256-GCM encrypt under a
32-byte key and a fresh 16-byte nonce, metadata with that checksum and
`size = B.length`) and then decoding the resulting artifact with the
resulting metadata (re-slice nonce/tag/ciphertext, decrypt, decompress,
checksum-verify, header check) returns exactly `B`. -/
theorem C1_encode_decode_roundtrip (key iv B : Bytes) (nowMs : Int) (fs : FS)
    (hk : key.length = 32) (hiv : iv.length = 16)
    (hdb : fsRead fs dbPath = some B)
    (hmagic : sqliteMagic.isPrefixOf (B.take 16) = true) :
    ∃ enc m, createSafeBackup key iv nowMs fs = .ok (enc, m)
      ∧ m.size = B.length ∧ m.checksum = sha256B B
      ∧ decodePipeline key (some m) enc = .ok B := by
  refine ⟨encryptRaw key iv (gzipB 9 B),
    ⟨"1.0", nowMs, B.length, sha256B B, "3.x"⟩, ?_, rfl, rfl, ?_⟩
  · simp [createSafeBackup, hdb, encryptBuf, hk]
  · simp only [decodePipeline, decryptBuf_encryptRaw key iv _ hk hiv, gunzipB_gzipB]
    simp [hmagic]

/-- Witness for C1: the concrete buffer `wPlain` (the SQLite magic itself)
round-trips through the pipeline under the fixture key and nonce. -/
theorem C1_witness :
    (sqliteMagic.isPrefixOf (wPlain.take 16) = true)
    ∧ ∃ enc m, createSafeBackup wKey wIv 0 [(dbPath, wPlain)] = .ok (enc, m)
        ∧ m.size = wPlain.length ∧ m.checksum = sha256B wPlain
        ∧ decodePipeline wKey (some m) enc = .ok wPlain :=
  ⟨by decide, C1_encode_decode_roundtrip wKey wIv wPlain 0 [(dbPath, wPlain)]
    (by decide) (by decide) (by decide) (by decide)⟩

/-- C2: Restore atomicity on failure — every run of `restoreFromBackup` that
raises (in particular decryption/AEAD-authentication failure, decompression
failure, checksum mismatch against metadata, and the SQLite header check)
leaves the filesystem byte-for-byte unchanged: no safety copy and no write
to the live path occurs, since every throw site precedes both. -/
theorem C2_restore_failure_no_mutation (key : Bytes) (envTok : Option String)
    (store : List Blob) (fs : FS) (nowMs : Int) (copyFails : Bool)
    (filename : Option String) (e : BackupError) (fs2 : FS)
    (h : restoreFromBackup key envTok store fs nowMs copyFails filename
      = .error (e, fs2)) : fs2 = fs :=
  restore_error_fs key envTok store fs nowMs copyFails filename e fs2 h

/-- Witness for C2: restoring from a corrupt one-byte artifact throws an
authentication-layer error and the live filesystem it reports is exactly the
pre-restore one. -/
theorem C2_witness :
    restoreFromBackup wKey (some "t") wCorruptStore wFs 5 false none
      = .error (.cryptoError "Invalid authentication tag length", [(dbPath, [byte 9])])
    ∧ ([(dbPath, [byte 9])] : FS) = wFs :=
  ⟨by decide, C2_restore_failure_no_mutation wKey (some "t") wCorruptStore wFs 5
    false none (.cryptoError "Invalid authentication tag length")
    [(dbPath, [byte 9])] (by decide)⟩

/-- C3: Retention classification — for every artifact, independently, keep
exactly when age < 7 days, or Sunday-dated and age < 28 days, or 1st-dated
and age < 365 days (the code's millisecond comparisons agree with the spec's
age-in-days rule), and the concrete instances at now = 2026-03-15 (a Sunday,
verified below): age 3 days (2026-03-12) kept; age 10 days (2026-03-05, a
Thursday, day 5) deleted; a Sunday-dated artifact inside the 28-day window
(2026-02-22T12:00, age 20.5 days, the calendar-consistent instant nearest
the claim's age 20) kept; a 1st-dated artifact inside the 365-day window
(2026-02-01, age 42 days, nearest instant to the claim's age 40) kept; a
1st-dated artifact past the window (2025-02-01, age 407 days, the claim's
age 400) deleted. -/
theorem C3_retention_classification :
    (∀ uploadedAt nowMs,
      shouldKeep uploadedAt nowMs = retentionSpecClassify uploadedAt nowMs)
    ∧ weekdayOfMs now2026 = 0
    ∧ shouldKeep 1773273600000 now2026 = true
    ∧ (shouldKeep 1772668800000 now2026 = false
        ∧ weekdayOfMs 1772668800000 ≠ 0 ∧ dayOfMonthOfMs 1772668800000 ≠ 1)
    ∧ (shouldKeep 1771761600000 now2026 = true ∧ weekdayOfMs 1771761600000 = 0)
    ∧ (shouldKeep 1769904000000 now2026 = true ∧ dayOfMonthOfMs 1769904000000 = 1)
    ∧ (shouldKeep 1738368000000 now2026 = false ∧ dayOfMonthOfMs 1738368000000 = 1) :=
  ⟨shouldKeep_eq_spec, by decide, by decide, by decide, by decide, by decide, by decide⟩

/-- Inverting a successful decode-and-install run with an existing live file
and a working copy syscall. -/
theorem restoreResolved_ok_inv (key : Bytes) (store : List Blob) (fs : FS)
    (nowMs : Int) (t : String) (old : Bytes) (fs2 : FS)
    (hold : fsRead fs dbPath = some old)
    (h : restoreResolved key store fs nowMs false t = .ok fs2) :
    ∃ dbBuf, downloadDecode key store t = .ok dbBuf
      ∧ fs2 = fsWrite (fsWrite fs (bakPath nowMs) old) dbPath dbBuf := by
  unfold restoreResolved at h
  split at h
  · simp at h
  · rename_i dbBuf heq
    unfold installRestored at h
    rw [hold] at h
    simp at h
    exact ⟨dbBuf, heq, h.symm⟩

/-- With an existing live file, a failing copy syscall never lets restore
reach the live write: no run returns success. -/
theorem restoreResolved_copyfail (key : Bytes) (store : List Blob) (fs : FS)
    (nowMs : Int) (t : String) (old : Bytes) (fs2 : FS)
    (hold : fsRead fs dbPath = some old)
    (h : restoreResolved key store fs nowMs true t = .ok fs2) : False := by
  unfold restoreResolved at h
  split at h
  · simp at h
  · unfold installRestored at h
    rw [hold] at h
    simp at h

/-- Reads out of the post-restore filesystem: the live path holds the decoded
bytes, the safety-copy path holds the pre-restore bytes, everything else is
untouched. -/
theorem install_reads (fs : FS) (old dbBuf : Bytes) (nowMs : Int) :
    fsRead (fsWrite (fsWrite fs (bakPath nowMs) old) dbPath dbBuf) dbPath = some dbBuf
    ∧ fsRead (fsWrite (fsWrite fs (bakPath nowMs) old) dbPath dbBuf) (bakPath nowMs)
        = some old
    ∧ ∀ p, p ≠ dbPath → p ≠ bakPath nowMs →
        fsRead (fsWrite (fsWrite fs (bakPath nowMs) old) dbPath dbBuf) p
          = fsRead fs p := by
  refine ⟨fsRead_fsWrite_self _ _ _, ?_, ?_⟩
  · rw [fsRead_fsWrite_ne _ _ _ _ (dbPath_ne_bakPath nowMs).symm]
    exact fsRead_fsWrite_self _ _ _
  · intro p hp hbak
    rw [fsRead_fsWrite_ne _ _ _ _ hp, fsRead_fsWrite_ne _ _ _ _ hbak]

/-- C4: Restore safety copy — when a live database file exists, a successful
restore first copied it to the timestamp-suffixed safety-copy path and then
wrote the decoded plaintext to the live path: afterwards the safety copy is
the single new file and holds the pre-restore bytes, the live file holds the
decoded bytes, and every other path is unchanged; and when the copy fails,
the restore aborts before any write to the live file (no run succeeds). -/
theorem C4_restore_safety_copy (key : Bytes) (envTok : Option String)
    (store : List Blob) (fs : FS) (nowMs : Int) (filename : Option String)
    (old : Bytes) (hold : fsRead fs dbPath = some old) :
    (∀ fs2, restoreFromBackup key envTok store fs nowMs false filename = .ok fs2 →
      ∃ t dbBuf, downloadDecode key store t = .ok dbBuf
        ∧ fs2 = fsWrite (fsWrite fs (bakPath nowMs) old) dbPath dbBuf
        ∧ fsRead fs2 dbPath = some dbBuf
        ∧ fsRead fs2 (bakPath nowMs) = some old
        ∧ ∀ p, p ≠ dbPath → p ≠ bakPath nowMs → fsRead fs2 p = fsRead fs p)
    ∧ (∀ fs2, restoreFromBackup key envTok store fs nowMs true filename ≠ .ok fs2) := by
  constructor
  · intro fs2 h
    unfold restoreFromBackup at h
    split at h
    · simp at h
    · split at h
      · rename_i t
        obtain ⟨dbBuf, hd, hfs⟩ := restoreResolved_ok_inv key store fs nowMs t old fs2 hold h
        subst hfs
        obtain ⟨r1, r2, r3⟩ := install_reads fs old dbBuf nowMs
        exact ⟨t, dbBuf, hd, rfl, r1, r2, r3⟩
      · split at h
        · simp at h
        · rename_i lb hlb
          obtain ⟨dbBuf, hd, hfs⟩ :=
            restoreResolved_ok_inv key store fs nowMs lb.pathname old fs2 hold h
          subst hfs
          obtain ⟨r1, r2, r3⟩ := install_reads fs old dbBuf nowMs
          exact ⟨lb.pathname, dbBuf, hd, rfl, r1, r2, r3⟩
  · intro fs2 h
    unfold restoreFromBackup at h
    split at h
    · simp at h
    · split at h
      · exact restoreResolved_copyfail key store fs nowMs _ old fs2 hold h
      · split at h
        · simp at h
        · exact restoreResolved_copyfail key store fs nowMs _ old fs2 hold h

/-- Witness for C4: a concrete successful restore over a live one-byte
database file produces exactly the safety copy plus the decoded live file. -/
theorem C4_witness :
    (fsRead wFs dbPath = some [byte 9])
    ∧ restoreFromBackup wKey (some "t") wStore wFs 5 false none
        = .ok [(dbPath, wPlain), (bakPath 5, [byte 9])]
    ∧ ∃ t dbBuf, downloadDecode wKey wStore t = .ok dbBuf
        ∧ ([(dbPath, wPlain), (bakPath 5, [byte 9])] : FS)
            = fsWrite (fsWrite wFs (bakPath 5) [byte 9]) dbPath dbBuf
        ∧ fsRead [(dbPath, wPlain), (bakPath 5, [byte 9])] dbPath = some dbBuf
        ∧ fsRead [(dbPath, wPlain), (bakPath 5, [byte 9])] (bakPath 5) = some [byte 9]
        ∧ ∀ p, p ≠ dbPath → p ≠ bakPath 5 →
            fsRead [(dbPath, wPlain), (bakPath 5, [byte 9])] p = fsRead wFs p :=
  ⟨by decide, by decide,
    (C4_restore_safety_copy wKey (some "t") wStore wFs 5 none [byte 9] (by decide)).1
      [(dbPath, wPlain), (bakPath 5, [byte 9])] (by decide)⟩

/-- C5 counterexample: the claim says `verifyLatestBackup` attempts the full
decode (decryption, decompression, checksum cross-check).  It does not: on a
store whose latest artifact decrypts cleanly but is not a gzip stream,
verification reports `true` while the decode pipeline run by restore rejects
that very artifact at the decompression step. -/
theorem C5_counterexample :
    verifyLatestBackup wKey (some "t") wBadGzStore = true
    ∧ downloadDecode wKey wBadGzStore "nanoclaw-backup/daily/2026-01-05_99.db"
        = .error (.formatError "incorrect header check") :=
  ⟨by decide, by decide⟩

/-- C5 amended: `verifyLatestBackup` downloads the latest daily artifact and
attempts decryption only — no decompression and no checksum cross-check —
writes nothing, and degrades every failure (missing credential, empty
listing, decryption error) to `false` rather than throwing: it reports
`true` exactly when the credential is present and the latest listed daily
artifact decrypts. -/
theorem C5_verify_decrypt_only (key : Bytes) (envTok : Option String)
    (st : List Blob) :
    verifyLatestBackup key envTok st = true
      ↔ (getBlobToken envTok ≠ ""
          ∧ ∃ lb, latestOf (dailyArtifacts st) = some lb
              ∧ (decryptBuf key (rawBytesOf lb.data)).isOk = true) := by
  unfold verifyLatestBackup
  split
  · rename_i htok
    simp [htok]
  · rename_i htok
    cases hl : latestOf (dailyArtifacts st) with
    | none => simp [hl, htok]
    | some lb => simp [hl, htok]

/-- C6 counterexample: with one stale artifact/metadata pair and a remote
`del` that fails exactly on the metadata key, cleanup deletes the artifact,
logs-and-continues on the metadata, and leaves a metadata record whose
paired artifact no longer exists — the iff invariant does not survive an
individual delete failure. -/
theorem C6_counterexample :
    hasKey (cleanupOldBackups (some "t") wDelFails now2026 wPairStore)
        "nanoclaw-backup/daily/2026-01-01_1.db.meta.json" = true
    ∧ hasKey (cleanupOldBackups (some "t") wDelFails now2026 wPairStore)
        "nanoclaw-backup/daily/2026-01-01_1.db" = false :=
  ⟨by decide, by decide⟩

/-- C6 amended: when every individual remote operation succeeds, the pairing
is maintained: upload appends exactly the artifact and its paired metadata
record, and cleanup removes a stale artifact and its paired metadata key in
the same pass; an individual put/del failure, however, can leave one half
without the other (logged and skipped, a known limitation). -/
theorem C6_pairing_when_no_failures (key iv : Bytes) (envTok : Option String)
    (fs : FS) (nowMs : Int) (st st2 : List Blob) (pf df : String → Bool)
    (hpf : ∀ p, pf p = false) (hdf : ∀ p, df p = false)
    (htok : getBlobToken envTok ≠ "") :
    (uploadBackup key iv envTok fs nowMs pf st = .ok st2 →
      ∃ fn buf m,
        st2 = st ++ [⟨fn, nowMs, .raw buf⟩, ⟨fn ++ ".meta.json", nowMs, .meta m⟩])
    ∧ (∀ b, b ∈ st → strStarts b.pathname backupRoot = true →
        isMetaKey b.pathname = false → shouldKeep b.uploadedAt nowMs = false →
        hasKey (cleanupOldBackups envTok df nowMs st) b.pathname = false
        ∧ hasKey (cleanupOldBackups envTok df nowMs st)
            (b.pathname ++ ".meta.json") = false) := by
  constructor
  · intro h
    unfold uploadBackup at h
    split at h
    · simp at h
    · rename_i buffer metadata heq
      rw [if_neg htok] at h
      simp only [hpf, Bool.false_eq_true, if_false] at h
      simp at h
      exact ⟨_, buffer, metadata, by rw [← h]⟩
  · intro b hb hroot hmeta hkeep
    have hb1 : b ∈ listBlobs st backupRoot := List.mem_filter.mpr ⟨hb, hroot⟩
    have hb2 : b ∈ (listBlobs st backupRoot).filter (fun x => !(isMetaKey x.pathname)) :=
      List.mem_filter.mpr ⟨hb1, by rw [hmeta]; rfl⟩
    obtain ⟨hm1, hm2⟩ := mem_staleList nowMs _ b hb2 hkeep
    unfold cleanupOldBackups
    rw [if_neg htok]
    constructor
    · rw [hasKey_delete_fold _ _ hdf]
      simp [hm1]
    · rw [hasKey_delete_fold _ _ hdf]
      simp [hm2]

/-- Witness for C6 amended, at all-succeeding oracles over the stale pair
store (upload instantiated at the store it actually produces). -/
theorem C6_witness :
    (uploadBackup wKey wIv (some "t") [(dbPath, wPlain)] now2026 (fun _ => false)
        wPairStore
        = .ok (wPairStore ++
            [⟨"nanoclaw-backup/daily/2026-03-15_1773532800000.db", now2026,
                .raw (encryptRaw wKey wIv (gzipB 9 wPlain))⟩,
             ⟨"nanoclaw-backup/daily/2026-03-15_1773532800000.db" ++ ".meta.json",
                now2026, .meta ⟨"1.0", now2026, 15, sha256B wPlain, "3.x"⟩⟩]) →
      ∃ fn buf m,
        (wPairStore ++
            [⟨"nanoclaw-backup/daily/2026-03-15_1773532800000.db", now2026,
                .raw (encryptRaw wKey wIv (gzipB 9 wPlain))⟩,
             ⟨"nanoclaw-backup/daily/2026-03-15_1773532800000.db" ++ ".meta.json",
                now2026, .meta ⟨"1.0", now2026, 15, sha256B wPlain, "3.x"⟩⟩])
          = wPairStore
              ++ [⟨fn, now2026, .raw buf⟩, ⟨fn ++ ".meta.json", now2026, .meta m⟩])
    ∧ (∀ b, b ∈ wPairStore → strStarts b.pathname backupRoot = true →
        isMetaKey b.pathname = false → shouldKeep b.uploadedAt now2026 = false →
        hasKey (cleanupOldBackups (some "t") (fun _ => false) now2026 wPairStore)
            b.pathname = false
        ∧ hasKey (cleanupOldBackups (some "t") (fun _ => false) now2026 wPairStore)
            (b.pathname ++ ".meta.json") = false) :=
  C6_pairing_when_no_failures wKey wIv (some "t") [(dbPath, wPlain)] now2026
    wPairStore _ (fun _ => false) (fun _ => false) (fun _ => rfl) (fun _ => rfl)
    (by decide)

/-- C7: the claim says the derived key always has the cipher's required 32
bytes.  With no `BACKUP_KEY` configured the code falls back to the string
literal `'nanoclaw-backup-key-32-chars!'`, which despite its name is 29
characters, so `createCipheriv('aes-256-gcm', ...)` rejects it ("Invalid key
length") and every encrypt/decrypt under the default configuration throws;
a supplied value is correctly padded/truncated to 32. -/
theorem C7_default_key_wrong_length :
    (getBackupKey none).length = 29
    ∧ encryptBuf (getBackupKey none) wIv wPlain
        = .error (.cryptoError "Invalid key length")
    ∧ (getBackupKey (some "k")).length = 32
    ∧ (getBackupKey (some "")).length = 32 :=
  ⟨by decide, by decide, by decide, by decide⟩

/-- C8 counterexample: the claim says all three of upload, restore and
cleanup fail with a labeled configuration error when the credential is
absent.  `cleanupOldBackups` does not: it logs a warning and returns
normally, leaving the store untouched and making no network call. -/
theorem C8_counterexample :
    cleanupOldBackups none (fun _ => false) now2026 wPairStore = wPairStore := rfl

/-- C8 amended: with the credential absent, `uploadBackup` and
`restoreFromBackup` fail with the labeled error
`'BLOB_READ_WRITE_TOKEN not configured'` before any network call (upload
checks after capture but before its first `put`; restore checks first),
while `cleanupOldBackups` deliberately skips with a warning, performing no
network call and no deletion. -/
theorem C8_missing_credential (key iv : Bytes) (fs : FS) (nowMs : Int)
    (pf df : String → Bool) (st : List Blob) (copyFails : Bool)
    (fn : Option String) (db : Bytes)
    (hdb : fsRead fs dbPath = some db) (hk : key.length = 32) :
    restoreFromBackup key none st fs nowMs copyFails fn
      = .error (.configError "BLOB_READ_WRITE_TOKEN not configured", fs)
    ∧ uploadBackup key iv none fs nowMs pf st
      = .error (.configError "BLOB_READ_WRITE_TOKEN not configured", st)
    ∧ cleanupOldBackups none df nowMs st = st := by
  refine ⟨rfl, ?_, rfl⟩
  simp [uploadBackup, createSafeBackup, hdb, encryptBuf, hk, getBlobToken]

/-- Witness for C8 amended at a concrete filesystem and store. -/
theorem C8_witness :
    restoreFromBackup wKey none wPairStore wFs 5 false none
      = .error (.configError "BLOB_READ_WRITE_TOKEN not configured", wFs)
    ∧ uploadBackup wKey wIv none wFs 5 (fun _ => false) wPairStore
      = .error (.configError "BLOB_READ_WRITE_TOKEN not configured", wPairStore)
    ∧ cleanupOldBackups none (fun _ => false) 5 wPairStore = wPairStore :=
  C8_missing_credential wKey wIv wFs 5 (fun _ => false) (fun _ => false)
    wPairStore false none [byte 9] (by decide) (by decide)

/-- C9 counterexample: the claim says an explicit key absent from the
listing fails with a not-found error.  The code instead takes the first blob
of `list({prefix: key})`: with the absent key
`'nanoclaw-backup/daily/2026-01'`, a prefix of an existing artifact key, the
restore succeeds and installs that other artifact rather than raising. -/
theorem C9_counterexample :
    restoreFromBackup wKey (some "t") wStore [] 5 false
        (some "nanoclaw-backup/daily/2026-01")
      = .ok [(dbPath, wPlain)]
    ∧ hasKey wStore "nanoclaw-backup/daily/2026-01" = false :=
  ⟨by decide, by decide⟩

/-- C9 amended: with no key, restore resolves the artifact with the maximal
store-reported upload time among daily non-metadata listings (not-found when
none exist); with an explicit key, it uses the first listed blob whose key
extends the given key, failing with a not-found error only when no stored
key extends it (an absent key that prefixes a stored key is silently
resolved to that blob). -/
theorem C9_target_resolution (key : Bytes) (envTok : Option String)
    (st : List Blob) (fs : FS) (nowMs : Int) (cf : Bool)
    (htok : getBlobToken envTok ≠ "") :
    (∀ t, listBlobs st t = [] →
      restoreFromBackup key envTok st fs nowMs cf (some t)
        = .error (.notFoundError ("Backup not found: " ++ t), fs))
    ∧ (dailyArtifacts st = [] →
      restoreFromBackup key envTok st fs nowMs cf none
        = .error (.notFoundError "No backup found", fs))
    ∧ (∀ b l, dailyArtifacts st = b :: l →
      ∃ lb, latestOf (dailyArtifacts st) = some lb
        ∧ (∀ x ∈ dailyArtifacts st, x.uploadedAt ≤ lb.uploadedAt)
        ∧ restoreFromBackup key envTok st fs nowMs cf none
            = restoreResolved key st fs nowMs cf lb.pathname) := by
  refine ⟨?_, ?_, ?_⟩
  · intro t ht
    have hres : restoreFromBackup key envTok st fs nowMs cf (some t)
        = restoreResolved key st fs nowMs cf t := by
      unfold restoreFromBackup
      rw [if_neg htok]
    rw [hres]
    unfold restoreResolved downloadDecode
    rw [ht]
  · intro h
    unfold restoreFromBackup
    rw [if_neg htok, h]
    rfl
  · intro b l h
    rw [h]
    obtain ⟨lb, hlb, hmax⟩ := latestOf_some l b
    refine ⟨lb, hlb, hmax, ?_⟩
    unfold restoreFromBackup
    rw [if_neg htok, h, hlb]

/-- Witness for C9 amended: on the one-artifact store the no-key restore
resolves exactly that artifact (the unique maximum). -/
theorem C9_witness :
    ∃ lb, latestOf (dailyArtifacts wStore) = some lb
      ∧ (∀ x ∈ dailyArtifacts wStore, x.uploadedAt ≤ lb.uploadedAt)
      ∧ restoreFromBackup wKey (some "t") wStore [] 5 false none
          = restoreResolved wKey wStore [] 5 false lb.pathname :=
  (C9_target_resolution wKey (some "t") wStore [] 5 false (by decide)).2.2
    wBlob [] (by decide)

/-- C10 counterexample: the claim says every input shorter than 32 bytes
makes the decrypt path raise.  Node's `setAuthTag` without an
`authTagLength` option accepts the NIST tag lengths 4, 8 and 12..16 and
`final()` compares the truncated tag, so the 20-byte input consisting of a
16-byte iv followed by the correct 4-byte truncated authentication tag of
the empty ciphertext decrypts successfully (to the empty plaintext). -/
theorem C10_counterexample :
    (wIv ++ (gcmTag wKey wIv []).take 4).length < 32
    ∧ decryptBuf wKey (wIv ++ (gcmTag wKey wIv []).take 4) = .ok [] :=
  ⟨by decide, by decide⟩

/-- C10 amended: an input shorter than 32 bytes has an empty ciphertext
region, so the decrypt path never returns a nonempty plaintext — every run
either raises or returns the empty buffer (the latter only at total lengths
20, 24 and 28..31, where the tag region has an accepted GCM tag length and
happens to equal the correct truncated tag); for every other short length
(0..19, 21..23, 25..27) the decrypt path always raises. -/
theorem C10_short_input_no_plaintext (key enc : Bytes) (h : enc.length < 32) :
    ((∃ e, decryptBuf key enc = .error e) ∨ decryptBuf key enc = .ok [])
    ∧ (enc.length ≠ 20 → enc.length ≠ 24 → ¬(28 ≤ enc.length) →
        ∃ e, decryptBuf key enc = .error e) := by
  have hdata : enc.drop 32 = [] := List.drop_eq_nil_of_le (by omega)
  constructor
  · simp only [decryptBuf]
    split
    · exact Or.inl ⟨_, rfl⟩
    · split
      · exact Or.inl ⟨_, rfl⟩
      · split
        · exact Or.inl ⟨_, rfl⟩
        · split
          · rw [hdata]; exact Or.inr rfl
          · exact Or.inl ⟨_, rfl⟩
  · intro h20 h24 h28
    simp only [decryptBuf]
    split
    · exact ⟨_, rfl⟩
    · split
      · exact ⟨_, rfl⟩
      · split
        · exact ⟨_, rfl⟩
        · rename_i hv
          exfalso
          have hv2 : isValidGCMTagLength ((enc.drop 16).take 16).length = true := by
            simpa using hv
          simp only [isValidGCMTagLength, List.length_take, List.length_drop,
            Bool.or_eq_true, Bool.and_eq_true, decide_eq_true_eq] at hv2
          omega

/-- Witness for C10 amended at a one-byte input: decryption raises (its
1-minus-16 = 0-byte tag region is not an accepted GCM tag length). -/
theorem C10_witness :
    (([byte 1] : Bytes).length < 32)
    ∧ (((∃ e, decryptBuf wKey [byte 1] = .error e)
          ∨ decryptBuf wKey [byte 1] = .ok [])
        ∧ (([byte 1] : Bytes).length ≠ 20 → ([byte 1] : Bytes).length ≠ 24 →
            ¬(28 ≤ ([byte 1] : Bytes).length) →
            ∃ e, decryptBuf wKey [byte 1] = .error e)) :=
  ⟨by decide, C10_short_input_no_plaintext wKey [byte 1] (by decide)⟩

end NanoBackup
